import Mathlib

/-
Verification of the core of the Moon reconciliation engine
(src/src/util/util.js) against its natural-language specification.

The JavaScript source is shallowly embedded: JS objects used as attribute
mappings become association lists with first-match lookup, JS values that can
appear as attribute values become an inductive `JSValue` with JS truthiness,
the virtual tree is `VNode`, the live rendered tree is `DomNode`, and every
live-tree mutation performed by the algorithms is recorded as an explicit
`DomOp` effect in the order the source performs it.
-/

set_option autoImplicit false
set_option linter.unusedVariables false

namespace Moon

/-- JavaScript values that can appear as attribute values or be compared with
the strict (in)equality operators in the source. Numbers are modelled as
integers; none of the claims involve fractional values. -/
inductive JSValue where
  | str (s : String)
  | num (n : Int)
  | bool (b : Bool)
  | null
  | undefined
deriving DecidableEq, Repr

/-- JS truthiness of a value, as used by `if(!vnodeProps[propName])` and
similar tests in the source: the empty string, 0, false, null and undefined
are falsy, everything else is truthy. -/
def truthy : JSValue → Bool
  | .str s => s != ""
  | .num n => n != 0
  | .bool b => b
  | .null => false
  | .undefined => false

/-- A JS object used as a string-keyed mapping (attribute sets, props).
Represented as an association list in key insertion order; lookup is
first match, matching shadowing in the prototype-chain encoding below. -/
abbrev JSObj : Type := List (String × JSValue)

/-- Property read `o[k]`: the first entry with key `k`, and the JS value
`undefined` when no entry exists. -/
def lookup (o : JSObj) (k : String) : JSValue :=
  match (List.find? (fun kv => kv.1 == k) o) with
  | some kv => kv.2
  | none => .undefined

/-- Property presence (`hasOwnProperty` / `in`): whether some entry has key
`k`, distinguishing an absent key from a key stored with value undefined. -/
def hasKey (o : JSObj) (k : String) : Bool :=
  List.any o (fun kv => kv.1 == k)

/-- Key sequence of a `for..in` loop over the object: each key once, in the
position of its first occurrence. -/
def enumKeys : JSObj → List String
  | [] => []
  | (k, _) :: rest => k :: (List.filter (fun k2 => k2 != k) (enumKeys rest))

/-- Embedding of `merge(obj, obj2)` from the source:
`var merged = Object.create(obj); for (key in obj2) if own: merged[key] = obj2[key]`.
The result delegates reads to `obj` through the prototype chain while holding
`obj2`'s entries as own properties; with first-match lookup and
first-occurrence enumeration, listing `obj2`'s entries before `obj`'s is
exactly that object: own properties shadow the prototype, and `for..in`
visits own keys first, then unshadowed prototype keys. -/
def merge (obj obj2 : JSObj) : JSObj := obj2 ++ obj

/-- State-explicit reading of the call `merge(obj, obj2)`: the source writes
only to the freshly created `merged` object (`Object.create` reads `obj`
without modifying it, and every assignment targets `merged`), so the post-call
states of both arguments are the unchanged arguments. -/
def mergeCall (obj obj2 : JSObj) : JSObj × JSObj × JSObj :=
  (obj, obj2, merge obj obj2)

/-- Per-node render metadata, `{shouldRender, eventListeners}` as produced by
`defaultMetadata` and consumed by `diff` and `addEventListeners`. Event
listeners map an event-type name to the ordered list of handler references
(method names in the source). -/
structure MetaData where
  shouldRender : Bool
  eventListeners : List (String × List String)
deriving DecidableEq, Repr

/-- Embedding of `defaultMetadata()`. -/
def defaultMetadata : MetaData :=
  { shouldRender := true, eventListeners := [] }

/-- A virtual DOM node as built by `createElement`: `{type, val, props,
children, meta}`. The `meta` field is an `Option` because `diff` guards
`vnode.meta` for truthiness, although every node built through
`createElement` carries metadata. -/
inductive VNode where
  | mk (type : String) (val : String) (props : JSObj) (children : List VNode)
       (meta : Option MetaData)

/-- Tag (or the text sentinel) of a virtual node. -/
def VNode.type : VNode → String
  | .mk t _ _ _ _ => t

/-- Value string of a virtual node. -/
def VNode.val : VNode → String
  | .mk _ v _ _ _ => v

/-- Props mapping of a virtual node. -/
def VNode.props : VNode → JSObj
  | .mk _ _ p _ _ => p

/-- Children of a virtual node. -/
def VNode.children : VNode → List VNode
  | .mk _ _ _ cs _ => cs

/-- Metadata of a virtual node. -/
def VNode.meta : VNode → Option MetaData
  | .mk _ _ _ _ m => m

/-- Embedding of `createElement(type, val, props, children, meta)`; the
source's `meta || defaultMetadata()` supplies the default when the argument
is absent or null. -/
def createElement (type val : String) (props : JSObj) (children : List VNode)
    (meta : Option MetaData) : VNode :=
  .mk type val props children (some (meta.getD defaultMetadata))

/-- The string JavaScript's `Array.prototype.join` produces for one element
of the `children` array inside `h`. Every element of that array is a plain
vnode object (`createElement` result or caller-supplied node), and `ToString`
of a plain object is the literal text `[object Object]`. -/
def joinPiece : VNode → String := fun _ => "[object Object]"

/-- The `children.join("")` expression of `h`: concatenation of the object
stringifications of the children. -/
def joinChildren (cs : List VNode) : String :=
  String.join (List.map joinPiece cs)

/-- One trailing argument to the variadic `h`: an array of nodes, a string,
the null literal, or anything else (assumed to already be a vnode). -/
inductive HArg where
  | arr (vs : List VNode)
  | str (s : String)
  | null
  | node (v : VNode)

/-- Embedding of `h(tag, attrs, meta, ...args)` from the source. `attrs` is
`args.shift() || {}` (an absent or null argument becomes the empty mapping);
each remaining argument is classified: an array is concatenated in flattened,
a string or null becomes a fresh text node carrying the string (empty for
null, via `args[i] || ''`), anything else is appended as-is. `val` of the
result is `children.join("")`. -/
def h (tag : String) (attrs : Option JSObj) (meta : Option MetaData)
    (args : List HArg) : VNode :=
  let attrs2 := attrs.getD []
  let children := List.foldl
    (fun (acc : List VNode) (a : HArg) =>
      match a with
      | .arr vs => acc ++ vs
      | .str s => acc ++ [createElement "#text" s [] [] meta]
      | .null => acc ++ [createElement "#text" "" [] [] meta]
      | .node v => acc ++ [v])
    [] args
  createElement tag (joinChildren children) attrs2 children meta

/-- A live rendered (DOM) node: a text node with its text content, or an
element with its reported tag (`nodeName`), its attribute set (attribute
values are strings in the DOM), and its child nodes. The host is modelled as
recording the tag exactly as it was passed to `document.createElement`. -/
inductive DomNode where
  | text (content : String)
  | elem (nodeName : String) (attrs : List (String × String))
         (children : List DomNode)

/-- The `nodeName` the host reports for a node: the text sentinel for text
nodes, the recorded tag for elements. -/
def DomNode.nodeName : DomNode → String
  | .text _ => "#text"
  | .elem n _ _ => n

/-- Child list of a live node (`node.childNodes`); a text node has none. -/
def DomNode.childNodes : DomNode → List DomNode
  | .text _ => []
  | .elem _ _ cs => cs

/-- Attribute set of a live node; a text node has none. -/
def DomNode.domAttrs : DomNode → List (String × String)
  | .text _ => []
  | .elem _ a _ => a

/-- Embedding of `.toLowerCase()` on the tag strings compared by `diff`. -/
def toLowerCase (s : String) : String :=
  String.mk (List.map Char.toLower s.data)

/-- Embedding of `extractAttrs(node)`: a node without an attribute list (a
text node) yields the empty mapping, otherwise each live attribute name maps
to its (string) value. -/
def extractAttrs : DomNode → JSObj
  | .text _ => []
  | .elem _ attrs _ => List.map (fun kv => (kv.1, JSValue.str kv.2)) attrs

/-- Ambient context the source reads through global scope: the current
instance's internally dispatched event registry (`self.$events`) and the
directive registries (`directives`, `specialDirectives`), each consulted
only for presence of a name. -/
structure Env where
  selfEvents : String → Bool
  directives : String → Bool
  specialDirectives : String → Bool

/-- One observable live-tree operation performed by the algorithms, recorded
in execution order: child-list membership mutations on the enclosing parent
(`appendChild`, `removeChild`, `replaceChild`), text assignment, attribute
assignment and removal, a directive hook invocation with the value it is
handed, a live `addEventListener` registration, and an internal-dispatcher
registration (`self.on`). -/
inductive DomOp where
  | appendChild
  | removeChild
  | replaceChild
  | setText (s : String)
  | setAttribute (k : String) (v : JSValue)
  | removeAttribute (k : String)
  | directiveCall (name : String) (value : JSValue)
  | addListener (etype method : String)
  | dispatcherOn (etype method : String)
deriving DecidableEq, Repr

/-- Embedding of `addEventListeners(node, eventListeners)`. The
`eventListeners` parameter is an `Option` because the source's only call
site passes no second argument, making it `undefined` there; `for..in` over
`undefined` performs no iterations. When a mapping is supplied, each
event-type's handlers are walked in order: a type present in `self.$events`
is registered on the internal dispatcher (`self.on`), any other type gets a
live listener that invokes the handler with the event object. -/
def addEventListeners (env : Env) (node : DomNode)
    (eventListeners : Option (List (String × List String))) : List DomOp :=
  match eventListeners with
  | none => []
  | some ls =>
    List.flatMap ls (fun tms =>
      List.map (fun m =>
        if env.selfEvents tms.1 then DomOp.dispatcherOn tms.1 m
        else DomOp.addListener tms.1 m) tms.2)

mutual

/-- Embedding of `createNodeFromVNode(vnode)`, returning the created live
node together with the listener-registration operations it performs. A text
vnode becomes a live text node carrying `val`. Any other vnode becomes a
fresh element with the vnode's type and an empty attribute set; the children
are materialized recursively and appended in order (the appends build the
still-detached element and are represented by the returned node's child
list), and then `addEventListeners(el)` is called — with no second argument,
exactly as in the source (the `vnode.meta.eventListeners` the source passes
to `map` is only `map`'s unused `thisArg`). -/
def createNodeFromVNode (env : Env) : VNode → DomNode × List DomOp
  | .mk t v _ cs _ =>
    if t == "#text" then (.text v, [])
    else
      let rs := createNodesFromVNodes env cs
      let el := DomNode.elem t [] (List.map Prod.fst rs)
      (el, List.flatten (List.map Prod.snd rs) ++ addEventListeners env el none)

/-- The `vnode.children.map(createNodeFromVNode, ...)` expression inside
`createNodeFromVNode`, written as explicit list recursion. -/
def createNodesFromVNodes (env : Env) : List VNode → List (DomNode × List DomOp)
  | [] => []
  | c :: cs => createNodeFromVNode env c :: createNodesFromVNodes env cs

end

/-- String coercion `setAttribute` applies to its value argument. -/
def jsToString : JSValue → String
  | .str s => s
  | .num n => toString n
  | .bool b => if b then "true" else "false"
  | .null => "null"
  | .undefined => "undefined"

/-- Live `setAttribute(k, v)` on an attribute list: update the existing
entry in place, or append a new one. -/
def setAttrVal (attrs : List (String × String)) (k v : String) :
    List (String × String) :=
  if List.any attrs (fun kv => kv.1 == k) then
    List.map (fun kv => if kv.1 == k then (k, v) else kv) attrs
  else attrs ++ [(k, v)]

/-- Live `removeAttribute(k)` on an attribute list. -/
def removeAttrVal (attrs : List (String × String)) (k : String) :
    List (String × String) :=
  List.filter (fun kv => kv.1 != k) attrs

/-- The operations the `diffProps` loop performs for one key of the merged
mapping, in order. First branch (`!vnodeProps[propName] || directives ||
specialDirectives`): if the key names a directive, its hook is invoked with
the merged mapping's value for the key (`allProps[propName]`), then the
attribute is removed. Second branch (`!nodeProps[propName] ||
nodeProps[propName] !== vnodeProps[propName]`): the attribute is set to the
desired value. Otherwise nothing happens. -/
def diffPropsKey (env : Env) (nodeProps vnodeProps : JSObj) (k : String) :
    List DomOp :=
  if !truthy (lookup vnodeProps k) || env.directives k
      || env.specialDirectives k then
    (if env.directives k
      then [DomOp.directiveCall k (lookup (merge nodeProps vnodeProps) k)]
      else [])
    ++ [DomOp.removeAttribute k]
  else if !truthy (lookup nodeProps k)
      || lookup nodeProps k != lookup vnodeProps k then
    [DomOp.setAttribute k (lookup vnodeProps k)]
  else []

/-- Embedding of `diffProps(node, nodeProps, vnodeProps, vnode)`: iterate
`for propName in merge(nodeProps, vnodeProps)` and perform `diffPropsKey`'s
operations for each key, in enumeration order. The `node` and `vnode`
parameters are carried for signature fidelity; `node` is the target of the
attribute operations and `vnode` the third argument of each directive hook. -/
def diffProps (env : Env) (node : DomNode) (nodeProps vnodeProps : JSObj)
    (vnode : VNode) : List DomOp :=
  List.flatMap (enumKeys (merge nodeProps vnodeProps))
    (diffPropsKey env nodeProps vnodeProps)

/-- Replay of the attribute operations `diffProps` emitted onto a live
element's attribute list, used to carry the post-call attribute state. -/
def applyPropOps (attrs : List (String × String)) (ops : List DomOp) :
    List (String × String) :=
  List.foldl
    (fun a op =>
      match op with
      | DomOp.setAttribute k v => setAttrVal a k (jsToString v)
      | DomOp.removeAttribute k => removeAttrVal a k
      | _ => a)
    attrs ops

/-- Live `node.textContent = s`: a text node's content is replaced; an
element's children are replaced by a single fresh text node. -/
def setTextContent : DomNode → String → DomNode
  | .text _, s => .text s
  | .elem nm attrs _, s => .elem nm attrs [.text s]

/-- The render gate at the top of `diff`:
`vnode && vnode.meta ? vnode.meta.shouldRender : true`. An absent vnode or a
vnode without metadata passes the gate. -/
def shouldRenderGate : Option VNode → Bool
  | none => true
  | some v =>
    match v.meta with
    | some m => m.shouldRender
    | none => true

/-- Surplus-removal tail of `diff`'s child loop: once the desired children
are exhausted, each iteration calls `diff(node.childNodes[i], undefined,
node)`, which removes `childNodes[i]` from the live collection; the
collection shifts, the loop index still advances, so every other surplus
child escapes removal. Returns the surviving children and the removal
operations performed. -/
def removeSurplus : List DomNode → List DomNode × List (Nat × DomOp)
  | [] => ([], [])
  | [_] => ([], [(0, DomOp.removeChild)])
  | _ :: b :: rest =>
    let r := removeSurplus rest
    (b :: r.1, (0, DomOp.removeChild) :: r.2)

mutual

/-- The body of `diff(node, vnode, parent)` for a present `vnode`. The pair
returned is the new occupant of the live slot `node` was read from (`none`
when nothing was created) together with every operation performed, in order,
tagged with the recursion depth of the `diff` invocation that performed it
(the top call is depth 0; operations of a call on a child slot are one
deeper). Membership operations (`appendChild`, `removeChild`,
`replaceChild`) act on the `parent` argument of the call that emits them.
Branches, in source order: the render gate skips everything; a missing live
node appends a materialization; a tag mismatch — the live `nodeName`
lowercased, compared verbatim against `vnode.type` — replaces with a fresh
materialization; two text nodes get a `textContent` assignment; a truthy
element type diffs attributes and then walks the child slots; a falsy
`vnode.type` does nothing. -/
def diffSome (env : Env) (node : Option DomNode) : VNode →
    Option DomNode × List (Nat × DomOp)
  | VNode.mk t val props cs meta =>
    if shouldRenderGate (some (VNode.mk t val props cs meta)) then
      match node with
      | none =>
        let r := createNodeFromVNode env (VNode.mk t val props cs meta)
        (some r.1, List.map (fun o => (0, o)) r.2 ++ [(0, DomOp.appendChild)])
      | some n =>
        if toLowerCase n.nodeName != t then
          let r := createNodeFromVNode env (VNode.mk t val props cs meta)
          (some r.1,
           List.map (fun o => (0, o)) r.2 ++ [(0, DomOp.replaceChild)])
        else if toLowerCase n.nodeName == "#text" && t == "#text" then
          (some (setTextContent n val), [(0, DomOp.setText val)])
        else if t != "" then
          let pOps := diffProps env n (extractAttrs n) props
            (VNode.mk t val props cs meta)
          let r := diffChildren env n.childNodes cs
          (some (match n with
                 | .text s => .text s
                 | .elem nm attrs _ => .elem nm (applyPropOps attrs pOps) r.1),
           List.map (fun o => (0, o)) pOps
             ++ List.map (fun p => (p.1 + 1, p.2)) r.2)
        else (some n, [])
    else (node, [])

/-- The child loop of `diff`:
`for(i = 0; i < vnode.children.length || i < node.childNodes.length; i++)
diff(node.childNodes[i], vnode.children[i], node)`, reading `childNodes` as
the live, mutating collection. While desired children remain, slot `i` pairs
the current live child with the desired child (an exhausted live list means
`undefined`, so a gate-passing desired child is materialized and appended at
the end, which is exactly position `i`); once the desired children are
exhausted the loop degenerates into `removeSurplus` over the remaining live
children. Returns the new live child list and the depth-tagged operations of
the slot calls. -/
def diffChildren (env : Env) (cur : List DomNode) (vs : List VNode) :
    List DomNode × List (Nat × DomOp) :=
  match cur, vs with
  | rest, [] => removeSurplus rest
  | [], v :: vs2 =>
    let r := diffSome env none v
    let r2 := diffChildren env [] vs2
    ((match r.1 with | some n => n :: r2.1 | none => r2.1), r.2 ++ r2.2)
  | c :: cs, v :: vs2 =>
    let r := diffSome env (some c) v
    let r2 := diffChildren env cs vs2
    ((match r.1 with | some n => n :: r2.1 | none => r2.1), r.2 ++ r2.2)

end

/-- Embedding of `diff(node, vnode, parent)` itself. A present `vnode` is
handled by `diffSome`; an absent `vnode` passes the render gate (the ternary
defaults to true) and, when a live node is present, `parent.removeChild`
removes it. When both arguments are absent the source would fault reading
`vnode.type` inside `createNodeFromVNode`; that case is unreachable from the
child loop and is modelled as doing nothing. -/
def diff (env : Env) (node : Option DomNode) (vnode : Option VNode) :
    Option DomNode × List (Nat × DomOp) :=
  match vnode with
  | some v => diffSome env node v
  | none =>
    match node with
    | some _ => (none, [(0, DomOp.removeChild)])
    | none => (none, [])

/-- Whether an operation changes live-node membership under some parent: an
addition (`appendChild`), a removal (`removeChild`) or a replacement
(`replaceChild`). Attribute, text, directive and listener operations are not
membership operations. -/
def isMemOp : DomOp → Bool
  | .appendChild => true
  | .removeChild => true
  | .replaceChild => true
  | _ => false

/-- Whether an operation sets the attribute named `k` (to any value). -/
def isSetAttrOn (k : String) : DomOp → Bool
  | .setAttribute k2 _ => k2 == k
  | _ => false

mutual

/-- Whether every `type` in a vnode tree is already lowercase (fixed by
`toLowerCase`). -/
def lowerTypes : VNode → Bool
  | .mk t _ _ cs _ => (toLowerCase t == t) && lowerTypesList cs

/-- List version of `lowerTypes`. -/
def lowerTypesList : List VNode → Bool
  | [] => true
  | c :: cs => lowerTypes c && lowerTypesList cs

end

/-- Ambient context with no internally dispatched events and no registered
directives. -/
def envNone : Env :=
  { selfEvents := fun _ => false
    directives := fun _ => false
    specialDirectives := fun _ => false }

/-- Ambient context in which exactly the attribute name `m-dir` is a
registered directive. -/
def envDir : Env :=
  { selfEvents := fun _ => false
    directives := fun k => k == "m-dir"
    specialDirectives := fun _ => false }

/-- A desired node whose tag is not lowercase. -/
def upperVNode : VNode := VNode.mk "DIV" "" [] [] none

/-- A small all-lowercase tree: a `div` with one attribute and a text
child. -/
def lowerTree : VNode :=
  VNode.mk "div" "" [("id", JSValue.str "x")]
    [VNode.mk "#text" "hi" [] [] none] (some defaultMetadata)

/-- A desired node whose metadata switches rendering off. -/
def gateOffVNode : VNode :=
  VNode.mk "div" "" [("class", JSValue.str "c")] []
    (some { shouldRender := false, eventListeners := [] })

/-- A live element that disagrees with `gateOffVNode` in tag and
attributes. -/
def liveP : DomNode := DomNode.elem "p" [("id", "y")] []

/-- A live element whose `m-dir` attribute currently holds `live`. -/
def liveDir : DomNode := DomNode.elem "div" [("m-dir", "live")] []

/-- A bare desired element node handed to `diffProps` for directive
context. -/
def bareDiv : VNode := VNode.mk "div" "" [] [] none

/-- A desired node declaring one `click` handler in its metadata. -/
def clickVNode : VNode :=
  VNode.mk "div" "" [] []
    (some { shouldRender := true, eventListeners := [("click", ["handleClick"])] })

/-
Helper lemmas about the mapping primitives.
-/

theorem hasKey_append (o1 o2 : JSObj) (k : String) :
    hasKey (o1 ++ o2) k = (hasKey o1 k || hasKey o2 k) := by
  simp [hasKey]

theorem lookup_append (o1 o2 : JSObj) (k : String) :
    lookup (o1 ++ o2) k
      = if hasKey o1 k = true then lookup o1 k else lookup o2 k := by
  induction o1 with
  | nil => simp [lookup, hasKey]
  | cons kv rest ih =>
    by_cases hk : (kv.1 == k) = true
    · simp [lookup, hasKey, hk]
    · simp only [List.cons_append, lookup, List.find?_cons, hk, hasKey,
        List.any_cons, Bool.false_or] at ih ⊢
      exact ih

theorem hasKey_false_lookup (o : JSObj) (k : String)
    (hyp : hasKey o k = false) : lookup o k = JSValue.undefined := by
  induction o with
  | nil => rfl
  | cons kv rest ih =>
    simp only [hasKey, List.any_cons, Bool.or_eq_false_iff] at hyp
    simp only [lookup, List.find?_cons, hyp.1]
    simpa [lookup, hasKey] using ih hyp.2

theorem mem_enumKeys (o : JSObj) (k : String) :
    k ∈ enumKeys o ↔ hasKey o k = true := by
  induction o with
  | nil => simp [enumKeys, hasKey]
  | cons kv rest ih =>
    simp only [enumKeys, hasKey, List.any_cons, List.mem_cons,
      List.mem_filter, ih, bne_iff_ne, Bool.or_eq_true, beq_iff_eq]
    by_cases hk : k = kv.1
    · subst hk; tauto
    · constructor
      · rintro (h1 | ⟨hmem, _⟩)
        · exact absurd h1 hk
        · exact Or.inr hmem
      · rintro (h1 | hmem)
        · exact absurd h1.symm hk
        · exact Or.inr ⟨hmem, hk⟩

/-
Claim C6: merge computes a non-mutating union with second-argument
priority.
-/

/-- Claim C6: for all attribute mappings `a` and `b`, `merge(a, b)` yields a
mapping in which every key of `a` and every key of `b` is present, a key
present in `b` maps to `b`'s value, a key present only in `a` maps to `a`'s
value, neither input is mutated by the call (the state-explicit reading
returns both arguments unchanged), and the merge of two empty mappings is
the empty mapping (merge is total, hence never fails). -/
theorem C6_merge_union (a b : JSObj) (k : String) :
    hasKey (merge a b) k = (hasKey a k || hasKey b k)
      ∧ (hasKey b k = true → lookup (merge a b) k = lookup b k)
      ∧ (hasKey a k = true → hasKey b k = false →
          lookup (merge a b) k = lookup a k)
      ∧ mergeCall a b = (a, b, merge a b)
      ∧ merge [] [] = [] := by
  refine ⟨?_, ?_, ?_, rfl, rfl⟩
  · rw [merge, hasKey_append, Bool.or_comm]
  · intro hb
    rw [merge, lookup_append, if_pos hb]
  · intro _ hb
    rw [merge, lookup_append, if_neg (by simp [hb])]

/-- Witness for C6 at concrete mappings: with `a = {class: "a"}` and
`b = {class: "b", id: "x"}`, the merged mapping contains `class` and `id`,
`class` resolves to `b`'s value, and a `b`-free key resolves to `a`'s
value. -/
theorem C6_merge_union_witness :
    hasKey (merge [("class", JSValue.str "a")]
        [("class", JSValue.str "b"), ("id", JSValue.str "x")]) "id" = true
      ∧ lookup (merge [("class", JSValue.str "a")]
          [("class", JSValue.str "b"), ("id", JSValue.str "x")]) "class"
        = JSValue.str "b"
      ∧ lookup (merge [("class", JSValue.str "a")] [("id", JSValue.str "x")])
          "class" = JSValue.str "a" := by
  refine ⟨?_, ?_, ?_⟩
  · rw [(C6_merge_union [("class", JSValue.str "a")]
      [("class", JSValue.str "b"), ("id", JSValue.str "x")] "id").1]
    decide
  · exact (C6_merge_union [("class", JSValue.str "a")]
      [("class", JSValue.str "b"), ("id", JSValue.str "x")] "class").2.1
      (by decide)
  · exact (C6_merge_union [("class", JSValue.str "a")]
      [("id", JSValue.str "x")] "class").2.2.1 (by decide) (by decide)

/-
Claim C8: an array argument to the hypertext builder is spliced in
flattened.
-/

/-- Claim C8: for all Nodes `childA` and `childB` and any tag, attributes
and metadata, passing the sequence `[childA, childB]` to `h` produces the
same children sequence as passing `childA` and `childB` as separate
arguments. -/
theorem C8_array_flattening (tag : String) (attrs : Option JSObj)
    (meta : Option MetaData) (childA childB : VNode) :
    (h tag attrs meta [HArg.arr [childA, childB]]).children
      = (h tag attrs meta [HArg.node childA, HArg.node childB]).children := rfl

/-
Claim C3: the value field of a built node. The code sets it to
children.join("") where children holds vnode objects, so JavaScript
stringifies each child as "[object Object]" instead of contributing its
value field: build("div", {}, meta, "a", "b") carries
value "[object Object][object Object]", not "ab".
-/

/-- Claim C3 (code bug evidence): `build("div", {}, meta, "a", "b")` does
yield two text-leaf children with values `"a"` and `"b"`, but its own
`value` is the object stringification `"[object Object][object Object]"`
produced by `children.join("")`, not the concatenation `"ab"` of the
children's values that the specification describes. -/
theorem C3_value_is_object_join :
    (h "div" (some []) (some defaultMetadata)
        [HArg.str "a", HArg.str "b"]).children
      = [createElement "#text" "a" [] [] (some defaultMetadata),
         createElement "#text" "b" [] [] (some defaultMetadata)]
      ∧ List.map VNode.val
          (h "div" (some []) (some defaultMetadata)
            [HArg.str "a", HArg.str "b"]).children = ["a", "b"]
      ∧ (h "div" (some []) (some defaultMetadata)
          [HArg.str "a", HArg.str "b"]).val = "[object Object][object Object]"
      ∧ (h "div" (some []) (some defaultMetadata)
          [HArg.str "a", HArg.str "b"]).val ≠ "ab" := by
  refine ⟨rfl, rfl, rfl, by decide⟩

/-
Helper lemmas about the attribute differ.
-/

theorem diffPropsKey_setAttr (env : Env) (a b : JSObj) (k2 k : String)
    (v : JSValue) (hop : DomOp.setAttribute k v ∈ diffPropsKey env a b k2) :
    k2 = k ∧ truthy (lookup b k2) = true := by
  unfold diffPropsKey at hop
  split_ifs at hop with h1 h2 h3
  · simp at hop
  · simp at hop
  · simp only [List.mem_singleton, DomOp.setAttribute.injEq] at hop
    simp only [Bool.or_eq_true, Bool.not_eq_eq_eq_not, Bool.not_true,
      not_or] at h1
    exact ⟨hop.1.symm, by simpa using h1.1.1⟩
  · simp at hop

theorem diffPropsKey_shape (env : Env) (a b : JSObj) (k2 : String) :
    ∀ op ∈ diffPropsKey env a b k2,
      (∃ v2, op = DomOp.directiveCall k2 v2)
      ∨ op = DomOp.removeAttribute k2
      ∨ (∃ v2, op = DomOp.setAttribute k2 v2) := by
  intro op hop
  unfold diffPropsKey at hop
  split_ifs at hop
  · simp only [List.singleton_append, List.mem_cons, List.mem_singleton,
      List.not_mem_nil, or_false] at hop
    rcases hop with rfl | rfl
    · exact Or.inl ⟨_, rfl⟩
    · exact Or.inr (Or.inl rfl)
  · simp only [List.nil_append, List.mem_singleton] at hop
    subst hop
    exact Or.inr (Or.inl rfl)
  · simp only [List.mem_singleton] at hop
    subst hop
    exact Or.inr (Or.inr ⟨_, rfl⟩)
  · simp at hop

theorem diffPropsKey_not_mem (env : Env) (a b : JSObj) (k2 : String) :
    ∀ op ∈ diffPropsKey env a b k2, isMemOp op = false := by
  intro op hop
  rcases diffPropsKey_shape env a b k2 op hop with ⟨v2, rfl⟩ | rfl | ⟨v2, rfl⟩
    <;> rfl

theorem diffProps_not_mem (env : Env) (node : DomNode) (a b : JSObj)
    (vnode : VNode) : ∀ op ∈ diffProps env node a b vnode,
      isMemOp op = false := by
  intro op hop
  rcases List.mem_flatMap.mp hop with ⟨k2, _, hop2⟩
  exact diffPropsKey_not_mem env a b k2 op hop2

/-
Claim C9: a key whose desired value is falsy is treated like an absent key:
removed, never set.
-/

/-- Claim C9: whenever the desired mapping holds key `k` with a falsy value
(empty string, 0, false, null or undefined), the attribute differ removes
the attribute `k` from the live element and performs no `setAttribute` for
`k`. -/
theorem C9_falsy_desired_is_removed (env : Env) (node : DomNode)
    (nodeProps vnodeProps : JSObj) (vnode : VNode) (k : String)
    (hpresent : hasKey vnodeProps k = true)
    (hfalsy : truthy (lookup vnodeProps k) = false) :
    DomOp.removeAttribute k ∈ diffProps env node nodeProps vnodeProps vnode
      ∧ List.all (diffProps env node nodeProps vnodeProps vnode)
          (fun op => !(isSetAttrOn k op)) = true := by
  constructor
  · have hkmem : k ∈ enumKeys (merge nodeProps vnodeProps) := by
      rw [mem_enumKeys, merge, hasKey_append, hpresent, Bool.true_or]
    refine List.mem_flatMap.mpr ⟨k, hkmem, ?_⟩
    simp [diffPropsKey, hfalsy]
  · rw [List.all_eq_true]
    intro op hop
    rcases List.mem_flatMap.mp hop with ⟨k2, _, hop2⟩
    cases op with
    | setAttribute k3 v =>
      rcases diffPropsKey_setAttr env nodeProps vnodeProps k2 k3 v hop2
        with ⟨rfl, htr⟩
      simp only [isSetAttrOn, Bool.not_eq_eq_eq_not, Bool.not_true,
        beq_eq_false_iff_ne, ne_eq]
      intro heq
      rw [heq] at htr
      rw [htr] at hfalsy
      cases hfalsy
    | appendChild => rfl
    | removeChild => rfl
    | replaceChild => rfl
    | setText s => rfl
    | removeAttribute k3 => rfl
    | directiveCall n v2 => rfl
    | addListener t m => rfl
    | dispatcherOn t m => rfl

/-- Witness for C9 at a concrete falsy desired value: current
`{id: "x"}`, desired `{id: ""}` removes `id` and never sets it. -/
theorem C9_falsy_desired_is_removed_witness :
    DomOp.removeAttribute "id"
      ∈ diffProps envNone liveP [("id", JSValue.str "x")]
          [("id", JSValue.str "")] bareDiv
      ∧ List.all (diffProps envNone liveP [("id", JSValue.str "x")]
            [("id", JSValue.str "")] bareDiv)
          (fun op => !(isSetAttrOn "id" op)) = true :=
  C9_falsy_desired_is_removed envNone liveP [("id", JSValue.str "x")]
    [("id", JSValue.str "")] bareDiv "id" (by decide) (by decide)

/-
Claim C4: removal of absent-or-directive keys, and the value handed to a
directive hook. The removal part holds; the hook receives the merged
mapping's value for the key — the desired value whenever the key is present
in the desired mapping — not the live element's current value.
-/

/-- Counterexample for C4 as stated: with `m-dir` registered as a directive,
a live value `live` and a desired value `want`, the hook is invoked with the
desired value `want`; it is never invoked with the live element's current
value `live`. -/
theorem C4_counterexample :
    diffProps envDir liveDir (extractAttrs liveDir)
        [("m-dir", JSValue.str "want")] bareDiv
      = [DomOp.directiveCall "m-dir" (JSValue.str "want"),
         DomOp.removeAttribute "m-dir"]
      ∧ DomOp.directiveCall "m-dir" (JSValue.str "live")
        ∉ diffProps envDir liveDir (extractAttrs liveDir)
            [("m-dir", JSValue.str "want")] bareDiv :=
  ⟨rfl, by decide⟩

/-- Claim C4 as amended: for every key of `merge(current, desired)` that is
absent from the desired mapping or names a directive or special directive,
the attribute is removed from the live element, and a directive's hook is
invoked before the removal with `(element, mergedValue, desiredNode)`, where
`mergedValue` is `merge(current, desired)[key]` — the desired value when the
key is present in the desired mapping, else the live current value. The
ordered sublist captures both the invocation value and that the hook runs
before the removal. -/
theorem C4_amended (env : Env) (node : DomNode) (nodeProps vnodeProps : JSObj)
    (vnode : VNode) (k : String)
    (hmem : k ∈ enumKeys (merge nodeProps vnodeProps))
    (hcond : hasKey vnodeProps k = false ∨ env.directives k = true
      ∨ env.specialDirectives k = true) :
    List.Sublist
      (if env.directives k = true
        then [DomOp.directiveCall k (lookup (merge nodeProps vnodeProps) k),
              DomOp.removeAttribute k]
        else [DomOp.removeAttribute k])
      (diffProps env node nodeProps vnodeProps vnode) := by
  have hbranch : (!truthy (lookup vnodeProps k) || env.directives k
      || env.specialDirectives k) = true := by
    rcases hcond with hc | hc | hc
    · rw [hasKey_false_lookup vnodeProps k hc]
      rfl
    · simp [hc]
    · simp [hc]
  have hfk : diffPropsKey env nodeProps vnodeProps k
      = (if env.directives k = true
          then [DomOp.directiveCall k
                  (lookup (merge nodeProps vnodeProps) k),
                DomOp.removeAttribute k]
          else [DomOp.removeAttribute k]) := by
    unfold diffPropsKey
    rw [if_pos hbranch]
    by_cases hd : env.directives k = true
    · rw [if_pos hd, if_pos hd]
      rfl
    · rw [if_neg hd, if_neg hd]
      rfl
  rcases List.append_of_mem hmem with ⟨s, t, hst⟩
  rw [diffProps, hst, List.flatMap_append, List.flatMap_cons, hfk]
  exact (List.sublist_append_left _ _).trans
    (List.sublist_append_right _ _)

/-- Witness for the amended C4 at the concrete directive input: the hook
invocation carrying the merged (desired) value, followed by the removal, is
an ordered sublist of the operations. -/
theorem C4_amended_witness :
    List.Sublist
      [DomOp.directiveCall "m-dir" (JSValue.str "want"),
       DomOp.removeAttribute "m-dir"]
      (diffProps envDir liveDir (extractAttrs liveDir)
        [("m-dir", JSValue.str "want")] bareDiv) := by
  have g := C4_amended envDir liveDir (extractAttrs liveDir)
    [("m-dir", JSValue.str "want")] bareDiv "m-dir" (by decide)
    (Or.inr (Or.inl (by decide)))
  rwa [if_pos (show envDir.directives "m-dir" = true by decide)] at g

/-
Claim C10: materialization never applies the vnode's attributes to the
created element.
-/

/-- Claim C10: for every element (non-text) vnode, the live element created
by the materializer carries an empty attribute set, whatever the vnode's
attribute mapping holds. -/
theorem C10_fresh_element_without_attributes (env : Env) (v : VNode)
    (ht : v.type ≠ "#text") :
    DomNode.domAttrs (createNodeFromVNode env v).1 = [] := by
  cases v with
  | mk t val props cs meta =>
    simp only [VNode.type] at ht
    have hbeq : (t == "#text") = false := beq_eq_false_iff_ne.mpr ht
    simp [createNodeFromVNode, hbeq, DomNode.domAttrs]

/-- Witness for C10: materializing a `div` carrying the attribute mapping
`{id: "x"}` yields a live element with no attributes. -/
theorem C10_fresh_element_without_attributes_witness :
    DomNode.domAttrs (createNodeFromVNode envNone
      (VNode.mk "div" "" [("id", JSValue.str "x")] [] none)).1 = [] :=
  C10_fresh_element_without_attributes envNone
    (VNode.mk "div" "" [("id", JSValue.str "x")] [] none) (by decide)

/-
Claim C2: the materializer is supposed to attach the declared event
listeners, but its call `addEventListeners(el)` omits the `eventListeners`
argument, so the loop ranges over `undefined` and attaches nothing.
-/

mutual

theorem createNodeFromVNode_ops_nil (env : Env) (v : VNode) :
    (createNodeFromVNode env v).2 = [] := by
  cases v with
  | mk t val props cs meta =>
    by_cases htext : (t == "#text") = true
    · simp [createNodeFromVNode, htext]
    · have hf : (t == "#text") = false := by simpa using htext
      simp [createNodeFromVNode, hf, addEventListeners,
        createNodesFromVNodes_ops_nil env cs]

theorem createNodesFromVNodes_ops_nil (env : Env) (cs : List VNode) :
    List.flatten (List.map Prod.snd (createNodesFromVNodes env cs)) = [] := by
  cases cs with
  | nil => rfl
  | cons c cs2 =>
    simp only [createNodesFromVNodes, List.map_cons, List.flatten_cons,
      createNodeFromVNode_ops_nil env c, List.nil_append]
    exact createNodesFromVNodes_ops_nil env cs2

end

/-- Claim C2 (code bug evidence): materializing any vnode — in particular
one declaring a `click` handler in `metadata.eventListeners` — registers no
listener at all, because the source invokes `addEventListeners(el)` without
its `eventListeners` argument; had the declared mapping been passed, the
same `addEventListeners` would have produced exactly one live `click`
registration invoking the handler. -/
theorem C2_no_listener_is_registered :
    (∀ (env : Env) (v : VNode), (createNodeFromVNode env v).2 = [])
      ∧ (createNodeFromVNode envNone clickVNode).2 = []
      ∧ addEventListeners envNone (DomNode.elem "div" [] [])
          (some [("click", ["handleClick"])])
        = [DomOp.addListener "click" "handleClick"] :=
  ⟨fun env v => createNodeFromVNode_ops_nil env v, rfl, rfl⟩

/-
Claim C5: the render gate is a full skip.
-/

/-- Claim C5: a desired node whose metadata carries `shouldRender = false`
makes `diff` perform no operation at all and leave the live slot untouched,
whatever the live node (or its absence) looks like. -/
theorem C5_render_gate_skips_subtree (env : Env) (node : Option DomNode)
    (v : VNode) (m : MetaData) (hm : v.meta = some m)
    (hsr : m.shouldRender = false) :
    diff env node (some v) = (node, []) := by
  cases v with
  | mk t val props cs meta =>
    simp only [VNode.meta] at hm
    subst hm
    show diffSome env node (VNode.mk t val props cs (some m)) = (node, [])
    simp [diffSome, shouldRenderGate, VNode.meta, hsr]

/-- Witness for C5: a gated-off desired `div` with a `class` attribute
leaves a live `p` element with different attributes fully untouched. -/
theorem C5_render_gate_skips_subtree_witness :
    diff envNone (some liveP) (some gateOffVNode) = (some liveP, []) :=
  C5_render_gate_skips_subtree envNone (some liveP) gateOffVNode
    { shouldRender := false, eventListeners := [] } rfl rfl

/-
Claim C7: the replace decision. The source lowercases only the live node's
tag and compares it verbatim against vnode.type, so a desired type that is
not lowercase is always treated as a mismatch — even against a live node
with the identical tag.
-/

/-- Counterexample for C7 as stated: a live `div` element and a desired node
of type `DIV` have tags equal up to case (their lowercasings agree), yet the
live node is replaced — the single operation performed is a depth-0
`replaceChild`. -/
theorem C7_counterexample :
    (diff envNone (some (DomNode.elem "div" [] [])) (some upperVNode)).2
      = [(0, DomOp.replaceChild)]
      ∧ toLowerCase (DomNode.nodeName (DomNode.elem "div" [] []))
        = toLowerCase (VNode.type upperVNode) :=
  ⟨rfl, by decide⟩

/-- Claim C7 as amended: with rendering not gated off, the live node is
replaced by a fresh materialization exactly when the lowercased live tag
differs from `desiredNode.type` taken verbatim (only the live side is
case-folded): on a mismatch the call returns the materialization and its
operations followed by a depth-0 `replaceChild`, and on a verbatim match no
depth-0 `replaceChild` is ever performed. -/
theorem C7_amended (env : Env) (n : DomNode) (v : VNode)
    (hgate : shouldRenderGate (some v) = true) :
    (toLowerCase n.nodeName ≠ v.type →
      diff env (some n) (some v)
        = (some (createNodeFromVNode env v).1,
           List.map (fun o => (0, o)) (createNodeFromVNode env v).2
             ++ [(0, DomOp.replaceChild)]))
      ∧ (toLowerCase n.nodeName = v.type →
          (0, DomOp.replaceChild) ∉ (diff env (some n) (some v)).2) := by
  cases v with
  | mk t val props cs meta =>
    simp only [VNode.type]
    constructor
    · intro hne
      have hb : (toLowerCase n.nodeName != t) = true := by
        simpa [bne_iff_ne] using hne
      show diffSome env (some n) (VNode.mk t val props cs meta) = _
      simp [diffSome, hgate, hb]
    · intro heq
      have hb : (toLowerCase n.nodeName != t) = false := by
        simp [bne_iff_ne, heq]
      show (0, DomOp.replaceChild)
        ∉ (diffSome env (some n) (VNode.mk t val props cs meta)).2
      simp only [diffSome, hgate, if_true, hb, Bool.false_eq_true, if_false]
      by_cases htext : (toLowerCase n.nodeName == "#text" && t == "#text")
        = true
      · simp [htext]
      · simp only [htext, Bool.false_eq_true, if_false]
        by_cases hty : (t != "") = true
        · simp only [hty, if_true, List.mem_append, List.mem_map, not_or]
          constructor
          · rintro ⟨op, hop, hpair⟩
            have : isMemOp op = false :=
              diffProps_not_mem env n (extractAttrs n) props
                (VNode.mk t val props cs meta) op hop
            rw [(Prod.mk.injEq .. ).mp hpair |>.2] at this
            cases this
          · rintro ⟨p, _, hpair⟩
            have h0 : p.1 + 1 = 0 := ((Prod.mk.injEq .. ).mp hpair).1
            cases h0
        · simp [hty]

/-- Witness for the amended C7: a live `div` against a desired `DIV` (gate
on) is replaced with exactly a depth-0 `replaceChild`, and against a desired
`div` (verbatim match) no depth-0 `replaceChild` happens. -/
theorem C7_amended_witness :
    diff envNone (some (DomNode.elem "div" [] [])) (some upperVNode)
      = (some (createNodeFromVNode envNone upperVNode).1,
         List.map (fun o => (0, o)) (createNodeFromVNode envNone upperVNode).2
           ++ [(0, DomOp.replaceChild)])
      ∧ (0, DomOp.replaceChild)
        ∉ (diff envNone (some (DomNode.elem "div" [] [])) (some bareDiv)).2 :=
  ⟨(C7_amended envNone (DomNode.elem "div" [] []) upperVNode rfl).1
      (by decide),
   (C7_amended envNone (DomNode.elem "div" [] []) bareDiv rfl).2 (by decide)⟩

/-
Claim C1: reconciling a materialization against its own vnode tree. Because
`diff` lowercases only the live tag, self-reconciliation is add/remove/
replace-free exactly for trees whose types are already lowercase; a
non-lowercase type is replaced even against its own materialization.
-/

mutual

theorem diffSelf_no_membership (env : Env) (T : VNode)
    (hl : lowerTypes T = true) :
    List.all (diffSome env (some (createNodeFromVNode env T).1) T).2
      (fun p => !(isMemOp p.2)) = true := by
  cases T with
  | mk t val props cs meta =>
    rw [lowerTypes, Bool.and_eq_true] at hl
    have ht : toLowerCase t = t := by simpa [beq_iff_eq] using hl.1
    have hcs := hl.2
    by_cases hg : shouldRenderGate (some (VNode.mk t val props cs meta))
      = true
    · by_cases htext : (t == "#text") = true
      · have htt : t = "#text" := by simpa using htext
        subst htt
        simp [createNodeFromVNode, diffSome, hg, DomNode.nodeName, ht,
          isMemOp]
      · have hf : (t == "#text") = false := by simpa using htext
        have hbne : (toLowerCase t != t) = false := by simp [bne_iff_ne, ht]
        by_cases hty : (t != "") = true
        · simp only [createNodeFromVNode, hf, Bool.false_eq_true, if_false,
            diffSome, hg, if_true, DomNode.nodeName, hbne, hf,
            Bool.and_false, ht, bne_self_eq_false, DomNode.childNodes, hty,
            List.all_append]
          rw [Bool.and_eq_true]
          constructor
          · rw [List.all_eq_true]
            intro x hx
            rcases List.mem_map.mp hx with ⟨op, hop, rfl⟩
            have hm := diffProps_not_mem env
              (DomNode.elem t []
                (List.map Prod.fst (createNodesFromVNodes env cs)))
              (extractAttrs (DomNode.elem t []
                (List.map Prod.fst (createNodesFromVNodes env cs))))
              props (VNode.mk t val props cs meta) op hop
            simp [hm]
          · rw [List.all_eq_true]
            intro x hx
            rcases List.mem_map.mp hx with ⟨p, hp, rfl⟩
            have hall := diffChildrenSelf_no_membership env cs hcs
            rw [List.all_eq_true] at hall
            simpa using hall p hp
        · have hty2 : (t != "") = false := by simpa using hty
          simp only [createNodeFromVNode, hf, Bool.false_eq_true, if_false,
            diffSome, hg, if_true, DomNode.nodeName, hbne, hf,
            Bool.and_false, ht, bne_self_eq_false, hty2, List.all_nil]
    · have hg2 : shouldRenderGate (some (VNode.mk t val props cs meta))
        = false := by simpa using hg
      simp [diffSome, hg2]

theorem diffChildrenSelf_no_membership (env : Env) (cs : List VNode)
    (hl : lowerTypesList cs = true) :
    List.all (diffChildren env
        (List.map Prod.fst (createNodesFromVNodes env cs)) cs).2
      (fun p => !(isMemOp p.2)) = true := by
  cases cs with
  | nil => rfl
  | cons c cs2 =>
    rw [lowerTypesList, Bool.and_eq_true] at hl
    simp only [createNodesFromVNodes, List.map_cons, diffChildren,
      List.all_append]
    rw [Bool.and_eq_true]
    exact ⟨diffSelf_no_membership env c hl.1,
           diffChildrenSelf_no_membership env cs2 hl.2⟩

end

/-- Counterexample for C1 as stated: for the tree consisting of the single
element node of type `DIV`, reconciling its own materialization against it
performs exactly one replacement — the live tag is lowercased before the
comparison but the desired type is not, so the fresh `DIV` element never
matches its own vnode. -/
theorem C1_counterexample :
    (diff envNone (some (createNodeFromVNode envNone upperVNode).1)
      (some upperVNode)).2 = [(0, DomOp.replaceChild)] := rfl

/-- Claim C1 as amended: for every vnode tree all of whose types are already
lowercase, reconciling the tree's materialization against the tree itself
performs zero live-node additions, removals and replacements, at every
recursion depth (only attribute, text, and directive operations can occur;
the live parent is the sole target of membership operations and receives
none). -/
theorem C1_amended (env : Env) (T : VNode) (hl : lowerTypes T = true) :
    List.all (diff env (some (createNodeFromVNode env T).1) (some T)).2
      (fun p => !(isMemOp p.2)) = true :=
  diffSelf_no_membership env T hl

/-- Witness for the amended C1: the concrete lowercase tree (a `div` with an
`id` attribute and one text child) self-reconciles without any membership
operation. -/
theorem C1_amended_witness :
    List.all (diff envNone
        (some (createNodeFromVNode envNone lowerTree).1) (some lowerTree)).2
      (fun p => !(isMemOp p.2)) = true :=
  C1_amended envNone lowerTree (by decide)

end Moon
